import Mathlib

/-!
Shallow embedding of the GitHub webhook deploy server
(`github-webhook.js`, the current version of the script: signature
verification, event filtering, per-key deploy locking, deploy subprocess
lifecycle, and status/comment reporting).

Modelling conventions:
  * Strings that may be absent in the JSON payload are `Option String`;
    JavaScript truthiness of such a value (`undefined`, `null` and the
    empty string are falsy) is the `truthy` predicate below.
  * Byte buffers are modelled at character granularity (`String.data`):
    the UTF-8 encoding used by `Buffer.from` on strings is injective, so
    equality of buffers coincides with equality of the character lists.
  * The asynchronous deploy path is modelled by the ordered list of its
    observable events (lock mutations, status/comment reporter
    invocations, process spawn/close/error).  Node's event-loop ordering
    makes this list deterministic for a single deploy: the promise of the
    `async` deploy function resolves (running the `finally` release of
    `withDeployLock`) as soon as the function body returns, i.e. right
    after `spawn` registers its handlers, while the child's `close` and
    `error` events are delivered in later event-loop turns.
  * Writes to the optional per-deploy log file and to the console are not
    modelled; no property below concerns them.
-/

set_option autoImplicit false

namespace Webhook

/-- JavaScript truthiness for an optional string: absent (`undefined` /
`null`) and the empty string are falsy. -/
def truthy : Option String → Bool
  | none => false
  | some s => !(s == "")

/-- JavaScript template interpolation of a possibly-undefined string:
an absent value prints as "undefined". -/
def jsStr : Option String → String
  | none => "undefined"
  | some s => s

-- ---------- Signature Verifier (function `verify`) --------------------------

/-- Model of Node's `crypto.timingSafeEqual` on the two buffers: it throws
(`Except.error`) when the lengths differ, and otherwise reports byte
equality.  Buffers are modelled as the character lists of the strings. -/
def timingSafeEqual (a b : List Char) : Except Unit Bool :=
  if a.length = b.length then Except.ok (decide (a = b)) else Except.error ()

/-- Result of the `try { return crypto.timingSafeEqual(...) } catch { return false }`
block: a thrown error is caught and becomes `false`. -/
def catchFalse : Except Unit Bool → Bool
  | Except.ok b => b
  | Except.error _ => false

/-- Model of `verify(sigHeader, raw)` from the source.  The HMAC-SHA256
hex digest is abstracted as a function argument `hmacHex`; `secret` is the
configured `WEBHOOK_SECRET` (empty string = not configured, as in the
source where the default is the empty string); `raw` is the raw request
body (a byte list). -/
def verify (hmacHex : String → List Nat → String) (secret : String)
    (sigHeader : Option String) (raw : List Nat) : Bool :=
  if secret = "" then true
  else if truthy sigHeader = false then false
  else
    catchFalse (timingSafeEqual ("sha256=" ++ hmacHex secret raw).data
      (sigHeader.getD "").data)

theorem sha256_prefix_append_ne_empty (t : String) : "sha256=" ++ t ≠ "" := by
  intro h
  have hd : ("sha256=" ++ t).data = ("" : String).data := congrArg String.data h
  rw [String.data_append] at hd
  simp [String.data] at hd

/-- C2: for every signature header, raw body and configured secret,
`verify` returns true iff no secret is configured or the header exactly
equals "sha256=" ++ hex(HMAC-SHA256(secret, body)); in particular a missing
header with a configured secret yields false, and a length mismatch yields
false (the thrown length error is caught) rather than raising. -/
theorem verify_true_iff (hmacHex : String → List Nat → String) (secret : String)
    (sigHeader : Option String) (raw : List Nat) :
    verify hmacHex secret sigHeader raw = true ↔
      (secret = "" ∨ sigHeader = some ("sha256=" ++ hmacHex secret raw)) := by
  constructor
  · intro h
    by_cases hs : secret = ""
    · exact Or.inl hs
    · refine Or.inr ?_
      unfold verify at h
      rw [if_neg hs] at h
      cases sigHeader with
      | none => simp [truthy] at h
      | some s =>
        by_cases hse : s = ""
        · subst hse
          simp [truthy] at h
        · rw [if_neg (by simp [truthy, hse])] at h
          unfold timingSafeEqual at h
          by_cases hlen :
              ("sha256=" ++ hmacHex secret raw).data.length = ((some s).getD "").data.length
          · rw [if_pos hlen] at h
            have hd := of_decide_eq_true h
            exact congrArg some (String.ext hd.symm)
          · rw [if_neg hlen] at h
            simp [catchFalse] at h
  · intro h
    rcases h with hs | hsig
    · unfold verify
      rw [if_pos hs]
    · subst hsig
      unfold verify
      by_cases hs : secret = ""
      · rw [if_pos hs]
      · rw [if_neg hs,
          if_neg (by simp [truthy, sha256_prefix_append_ne_empty])]
        simp [timingSafeEqual, catchFalse]

/-- C2 witness: a matching header verifies at a concrete secret, digest
and body. -/
theorem verify_true_iff_witness :
    verify (fun _ _ => "deadbeef") "s3cret" (some "sha256=deadbeef") [1, 2, 3] =
      true :=
  (verify_true_iff (fun _ _ => "deadbeef") "s3cret" (some "sha256=deadbeef")
    [1, 2, 3]).mpr (Or.inr rfl)

-- ---------- Status Reporter (callGitHub, setStatus, addComment) -------------

/-- An outbound request to the GitHub API, as prepared by `callGitHub`:
method, path and the JSON body fields relevant to the claims. -/
structure ApiCall where
  method : String
  path : String
  body : List (String × String)
deriving DecidableEq

/-- Model of `callGitHub(method, path, body)`: silently skipped (no request)
when no token is configured (`TOKEN` undefined or empty is falsy); otherwise
an HTTPS request to api.github.com is issued.  The returned `Option ApiCall`
is the outbound call, `none` meaning no call was made. -/
def callGitHub (token : Option String) (method apiPath : String)
    (body : List (String × String)) : Option ApiCall :=
  if truthy token = false then none
  else some ⟨method, apiPath, body⟩

/-- Model of `setStatus(repo, sha, state, desc)`: returns early (no call)
when `repo` or `sha` is falsy; otherwise posts the commit status with the
description truncated to 140 characters and context "github-deploy". -/
def setStatus (token : Option String) (repo sha state desc : String) :
    Option ApiCall :=
  if repo = "" ∨ sha = "" then none
  else callGitHub token "POST" ("/repos/" ++ repo ++ "/statuses/" ++ sha)
    [("state", state), ("description", desc.take 140), ("context", "github-deploy")]

/-- Model of `addComment(repo, sha, body)`: returns early (no call) when
`repo` or `sha` is falsy; otherwise posts the commit comment with the body
truncated to 65536 characters. -/
def addComment (token : Option String) (repo sha body : String) :
    Option ApiCall :=
  if repo = "" ∨ sha = "" then none
  else callGitHub token "POST" ("/repos/" ++ repo ++ "/commits/" ++ sha ++ "/comments")
    [("body", body.take 65536)]

-- ---------- Payload model and catch-block identifier extraction -------------

/-- Fields of the payload's repository object that the handler reads. -/
structure RepoInfo where
  full_name : Option String
  name : Option String
deriving DecidableEq

/-- Fields of a parsed webhook payload that the handler reads. -/
structure RawEvent where
  ref : Option String
  after : Option String
  repository : Option RepoInfo
  deleted : Bool
deriving DecidableEq

/-- Model of the catch block's best-effort identifier recovery: starting
from the placeholders "unknown/unknown" and "unknown", it overwrites them
with `event.repository?.full_name` and `event.after` when those are truthy.
The argument is the result of re-parsing the raw body (`none` when
`JSON.parse` throws again). -/
def extractIdentifiers (parsed : Option RawEvent) : String × String :=
  match parsed with
  | none => ("unknown/unknown", "unknown")
  | some e =>
    let repo := match e.repository.bind RepoInfo.full_name with
      | some fn => if fn = "" then "unknown/unknown" else fn
      | none => "unknown/unknown"
    let sha := match e.after with
      | some a => if a = "" then "unknown" else a
      | none => "unknown"
    (repo, sha)

-- ---------- Rolling Log Buffer (saveLines) ----------------------------------

/-- One `lines.push(trimmed)` followed by the bound check
`if (lines.length > 50) lines.shift()` from `saveLines`. -/
def pushLine (buf : List String) (trimmed : String) : List String :=
  if (buf ++ [trimmed]).length > 50 then (buf ++ [trimmed]).tail
  else buf ++ [trimmed]

/-- Character-level model of JavaScript split on a one-character
separator: splitting the empty string gives one empty piece, and every
separator occurrence starts a new piece. -/
def splitSep (sep : Char) : List Char → List (List Char)
  | [] => [[]]
  | c :: rest =>
    match splitSep sep rest with
    | [] => [[]]
    | h :: t => if c = sep then [] :: h :: t else (c :: h) :: t

/-- JavaScript String.prototype.split on a one-character separator. -/
def jsSplit (sep : Char) (s : String) : List String :=
  (splitSep sep s.data).map String.mk

/-- JavaScript data.toString().split of a chunk into its lines. -/
def jsSplitLines (s : String) : List String :=
  jsSplit '\n' s

/-- Character-level model of JavaScript String.prototype.trim: whitespace
removed from both ends (whitespace per Char.isWhitespace). -/
def jsTrim (s : String) : String :=
  String.mk (((s.data.dropWhile Char.isWhitespace).reverse.dropWhile
    Char.isWhitespace).reverse)

/-- Model of `saveLines(data)`: split the chunk on newlines, trim each
line, and append every non-empty trimmed line to the rolling buffer. -/
def saveLines (buf : List String) (data : String) : List String :=
  (jsSplitLines data).foldl
    (fun b line => if jsTrim line = "" then b else pushLine b (jsTrim line)) buf

/-- Buffer contents after feeding all output chunks of the child process
through `saveLines`, starting from the empty `lines` array. -/
def linesAfter (chunks : List String) : List String :=
  chunks.foldl saveLines []

/-- JavaScript `lines.slice(-n)`: the last `n` elements (all of them when
fewer than `n` are present). -/
def lastSlice (n : Nat) (l : List String) : List String :=
  l.drop (l.length - n)

/-- JavaScript Array.prototype.join with a newline separator. -/
def joinLines : List String → String
  | [] => ""
  | [s] => s
  | s :: rest => s ++ "\n" ++ joinLines rest

theorem foldl_pushLine_drop (ls : List String) :
    ls.foldl pushLine [] = ls.drop (ls.length - 50) := by
  induction ls using List.reverseRecOn with
  | nil => rfl
  | append_singleton l x ih =>
    rw [List.foldl_append, List.foldl_cons, List.foldl_nil, ih]
    unfold pushLine
    by_cases h : l.length < 50
    · have h0 : l.length - 50 = 0 := by omega
      have h1 : (l ++ [x]).length - 50 = 0 := by
        simp only [List.length_append, List.length_cons, List.length_nil]
        omega
      rw [h0, h1, List.drop_zero, List.drop_zero]
      have hlen : ¬ (l ++ [x]).length > 50 := by
        simp only [List.length_append, List.length_cons, List.length_nil]
        omega
      rw [if_neg hlen]
    · have h50 : 50 ≤ l.length := by omega
      have hdlen : (l.drop (l.length - 50)).length = 50 := by
        rw [List.length_drop]
        omega
      have hgt : (l.drop (l.length - 50) ++ [x]).length > 50 := by
        simp only [List.length_append, List.length_cons, List.length_nil, hdlen]
        omega
      rw [if_pos hgt]
      obtain ⟨a, t, hat⟩ : ∃ a t, l.drop (l.length - 50) = a :: t := by
        cases hd : l.drop (l.length - 50) with
        | nil => rw [hd] at hdlen; simp at hdlen
        | cons a t => exact ⟨a, t, rfl⟩
      rw [hat]
      have htail : ((a :: t) ++ [x]).tail = t ++ [x] := rfl
      rw [htail]
      have ht : t = l.drop (l.length - 49) := by
        have := congrArg List.tail hat
        rw [List.tail_drop] at this
        have harith : l.length - 50 + 1 = l.length - 49 := by omega
        rw [harith] at this
        exact this.symm
      rw [ht]
      have harith2 : (l ++ [x]).length - 50 = l.length - 49 := by
        simp only [List.length_append, List.length_cons, List.length_nil]
        omega
      rw [harith2]
      rw [List.drop_append_of_le_length (by omega : l.length - 49 ≤ l.length)]

-- ---------- Deploy trace model ----------------------------------------------

/-- Observable events of a deploy attempt, in event-loop order: mutations
of the `runningDeploys` set, Status Reporter invocations, process spawning
and child-process close/error events. -/
inductive Ev where
  | lockAdd (key : String)
  | lockRemove (key : String)
  | skipped (key : String)
  | statusEv (repo sha state desc : String)
  | commentEv (repo sha body : String)
  | spawnProc (cmd : String) (args : List String) (cwd : String)
  | procClose (code : Option Int)
  | procError (msg : String)
deriving DecidableEq

/-- Events of `reportErrorAndCleanup({repo, sha, errorMsg, commentBody,
deployKey})`: delete the key from `runningDeploys` if one was passed, set
an error status, and add the comment if a body was passed. -/
def reportErrorAndCleanupEv (repo sha errorMsg : String)
    (commentBody : Option String) (deployKey : Option String) : List Ev :=
  (match deployKey with
    | some k => [Ev.lockRemove k]
    | none => []) ++
  [Ev.statusEv repo sha "error" errorMsg] ++
  (match commentBody with
    | some b => [Ev.commentEv repo sha b]
    | none => [])

/-- Environment of one deploy: outcomes of the filesystem check, the two
git steps (with the captured git output used as the error message), the
spawn of the deploy command, its exit code (None models a null code after
a signal) and its output chunks. -/
structure DeployEnv where
  dirExists : Bool
  fetchOk : Bool
  checkoutOk : Bool
  gitErrMsg : String
  spawnOk : Bool
  spawnErrMsg : String
  exitCode : Option Int
  chunks : List String
deriving DecidableEq

/-- JavaScript template interpolation of the exit code (a number or null). -/
def showCode : Option Int → String
  | none => "null"
  | some n => toString n

/-- Events that happen before the promise of `deployFn` resolves: the
directory pre-flight check, the pending status, the git fetch/checkout
steps, and the spawn of the deploy command.  On the two early-error paths
`reportErrorAndCleanup` runs to completion (it is awaited) before the
promise resolves. -/
def deployFnSyncEvents (env : DeployEnv) (repo sha key cwd : String) : List Ev :=
  if !env.dirExists then
    reportErrorAndCleanupEv repo sha "Repository directory not found" none (some key)
  else
    Ev.statusEv repo sha "pending" "Deploy started" ::
    (if !(env.fetchOk && env.checkoutOk) then
      reportErrorAndCleanupEv repo sha "Git fetch/checkout failed"
        (some ("🚨 Git fetch/checkout failed:\n\n```\n" ++ env.gitErrMsg ++ "\n```"))
        (some key)
    else
      [Ev.spawnProc "just" ["github-deploy", sha] cwd])

/-- Events of the close handler (lines 493-514 of the source): the close
event itself, the terminal status decided by `code === 0`, and on a
non-zero code one comment with the last 20 buffered lines fenced as a
code block. -/
def closeHandlerEvents (repo sha : String) (code : Option Int)
    (lines : List String) : List Ev :=
  Ev.procClose code ::
  Ev.statusEv repo sha
    (if code = some 0 then "success" else "failure")
    (if code = some 0 then "Deploy complete" else "Deploy failed") ::
  (if code = some 0 then []
   else
    [Ev.commentEv repo sha
      ("🚨 Deploy failed (exit code: " ++ showCode code ++ ")\n\n```\n" ++
        joinLines (lastSlice 20 lines) ++ "\n```")])

/-- Events delivered by later event-loop turns, after the promise of
`deployFn` has resolved.  When the spawn succeeds: the close handler.
When the spawn fails: the error handler (spawn failure, reported through
`reportErrorAndCleanup`) and THEN the close handler as well — Node always
emits close after error when the child failed to spawn, with a non-zero
(negative errno) code carried here by the exitCode field, so the close
handler additionally reports a failure status and a tail comment.  The
close event reaches the program in a later event-loop turn than the spawn
error; its reporter invocations are modelled after the error handler's
awaited calls (the exact interleaving of the two handlers' awaited HTTP
calls depends on response timing and no property here depends on it). -/
def deployFnProcEvents (env : DeployEnv) (repo sha key _cwd : String) : List Ev :=
  if !env.dirExists then []
  else if !(env.fetchOk && env.checkoutOk) then []
  else if env.spawnOk then
    closeHandlerEvents repo sha env.exitCode (linesAfter env.chunks)
  else
    Ev.procError env.spawnErrMsg ::
    (reportErrorAndCleanupEv repo sha "Deploy process failed to start"
      (some ("🚨 Deploy process failed to start:\n\n```\n" ++ env.spawnErrMsg ++ "\n```"))
      (some key) ++
    closeHandlerEvents repo sha env.exitCode (linesAfter env.chunks))

/-- Model of `withDeployLock(deployKey, fn)` applied to `deployFn`, given
the state `running` of the `runningDeploys` set when the attempt starts:
if the key is present the attempt is skipped (no further events);
otherwise the key is added, the sync-phase events happen, the `finally`
release fires as soon as the promise of `deployFn` resolves, and the
child-process handler events follow in later event-loop turns. -/
def attemptEvents (running : List String) (env : DeployEnv)
    (repo sha key cwd : String) : List Ev :=
  if running.contains key then [Ev.skipped key]
  else
    Ev.lockAdd key ::
    (deployFnSyncEvents env repo sha key cwd ++
      (Ev.lockRemove key :: deployFnProcEvents env repo sha key cwd))

/-- The check-and-insert at the head of `withDeployLock`: fails (first
component false, set unchanged) when the key is already present, and
otherwise records the key. -/
def tryAcquire (running : List String) (key : String) : Bool × List String :=
  if running.contains key then (false, running)
  else (true, key :: running)

/-- The (state, description) pairs of the Status Reporter invocations in a
trace, in order. -/
def statusList (tr : List Ev) : List (String × String) :=
  tr.filterMap fun e =>
    match e with
    | Ev.statusEv _ _ st d => some (st, d)
    | _ => none

/-- The bodies of the comment invocations in a trace, in order. -/
def commentList (tr : List Ev) : List String :=
  tr.filterMap fun e =>
    match e with
    | Ev.commentEv _ _ b => some b
    | _ => none

/-- Does a trace spawn the deploy command? -/
def spawnCount (tr : List Ev) : Nat :=
  (tr.filter fun e =>
    match e with
    | Ev.spawnProc _ _ _ => true
    | _ => false).length

-- ---------- Event Filter and Request Handler --------------------------------

/-- Branch extraction: the last path segment of the ref,
as in ref.split(slash).pop(). -/
def lastSegment (ref : String) : String :=
  (jsSplit '/' ref).getLastD ""

/-- Decision of the push-event filter in the request handler. -/
inductive FilterResult where
  | rejected
  | ignoredBranch (branch : String)
  | proceed (sha : String) (repo : RepoInfo) (branch : String)
deriving DecidableEq

/-- Model of the filter at the top of the request handler: reject when the
event lacks a truthy ref, lacks a truthy after, lacks a repository object,
or has deleted set; otherwise compute the branch from the ref and ignore
every branch other than main and master. -/
def filterEvent (e : RawEvent) : FilterResult :=
  if !truthy e.ref || !truthy e.after || e.repository.isNone || e.deleted then
    FilterResult.rejected
  else if lastSegment (e.ref.getD "") ≠ "main" ∧ lastSegment (e.ref.getD "") ≠ "master" then
    FilterResult.ignoredBranch (lastSegment (e.ref.getD ""))
  else
    FilterResult.proceed (e.after.getD "") (e.repository.getD ⟨none, none⟩)
      (lastSegment (e.ref.getD ""))

/-- The deploy key of line 416 of the source: repository full name,
a colon, and the branch. -/
def deployKey (repo branch : String) : String :=
  repo ++ ":" ++ branch

/-- The working directory of line 417 of the source: the repos directory
joined with the repository short name. -/
def cwdOf (repoName : String) : String :=
  "repos/" ++ repoName

/-- Events produced by the handler for one parsed event: nothing when the
filter rejects or ignores the branch, otherwise the deploy attempt under
the lock, with the repository identifiers interpolated as JavaScript
template strings. -/
def handleEvent (running : List String) (env : DeployEnv) (e : RawEvent) : List Ev :=
  match filterEvent e with
  | FilterResult.rejected => []
  | FilterResult.ignoredBranch _ => []
  | FilterResult.proceed sha repo branch =>
    attemptEvents running env (jsStr repo.full_name) sha
      (deployKey (jsStr repo.full_name) branch) (cwdOf (jsStr repo.name))

/-- HTTP status code sent to the webhook caller, as decided by the request
handler: the log-retrieval GET path (GET with LOG_DIR configured and a
two-segment URL) serves 200 or 404; any other non-POST method gets 405; a
request stream error gets 400; otherwise the signature check decides
between 401 and 200. -/
def webhookResponse (method : String) (logDirSet : Bool)
    (pathParts : List String) (logFileExists : Bool)
    (reqError : Bool) (sigValid : Bool) : Nat :=
  if method = "GET" ∧ logDirSet ∧ pathParts.length = 2 then
    (if logFileExists then 200 else 404)
  else if method ≠ "POST" then 405
  else if reqError then 400
  else if !sigValid then 401
  else 200

/-- Is a request on the out-of-scope log-retrieval GET path? -/
def isLogGetPath (method : String) (logDirSet : Bool) (pathParts : List String) : Prop :=
  method = "GET" ∧ logDirSet = true ∧ pathParts.length = 2

instance (method : String) (logDirSet : Bool) (pathParts : List String) :
    Decidable (isLogGetPath method logDirSet pathParts) := by
  unfold isLogGetPath
  infer_instance

-- ---------- Claim theorems --------------------------------------------------

/-- C1: evaluation of the deploy path at a failing input (directory
present, git steps succeed, spawn succeeds, exit code 0).  The trace shows
that the running-deploys key is removed (by the finally of withDeployLock,
which fires when the promise of deployFn resolves right after spawn)
BEFORE the process-close event and its terminal status — contradicting the
claim that the key is removed only when the winning deploy terminates.
After that early removal the set is empty again, so a second attempt for
the same key acquires the lock and spawns concurrently (second conjunct);
only while the key is actually in the set is an attempt skipped (third
conjunct). -/
theorem deploy_lock_released_before_close :
    attemptEvents [] ⟨true, true, true, "", true, "", some 0, ["ok"]⟩
      "octo/app" "abc123" (deployKey "octo/app" "main") (cwdOf "app") =
      [Ev.lockAdd "octo/app:main",
       Ev.statusEv "octo/app" "abc123" "pending" "Deploy started",
       Ev.spawnProc "just" ["github-deploy", "abc123"] "repos/app",
       Ev.lockRemove "octo/app:main",
       Ev.procClose (some 0),
       Ev.statusEv "octo/app" "abc123" "success" "Deploy complete"] ∧
    (tryAcquire [] (deployKey "octo/app" "main")).1 = true ∧
    attemptEvents ["octo/app:main"] ⟨true, true, true, "", true, "", some 0, ["ok"]⟩
      "octo/app" "abc123" (deployKey "octo/app" "main") (cwdOf "app") =
      [Ev.skipped "octo/app:main"] :=
  ⟨rfl, rfl, rfl⟩

/-- C3 (amended): closed form of the status sequence of a deploy attempt
that acquires the lock.  A missing repository directory reports a single
error with no pending; a git fetch/checkout failure reports pending (sent
before the git steps) and then a single error; a spawned deploy reports
pending and then exactly one terminal status decided by the close code; a
deploy whose spawn fails reports pending, then the error status from the
spawn-error handler, then the close handler's terminal for the close code
(which on a real failed spawn is a negative errno and never 0, so that
terminal is failure).  In every deploy that reports pending, pending
comes first, before any terminal status. -/
theorem deploy_status_sequences (d f c s : Bool) (g m : String)
    (code : Option Int) (ch : List String) (repo sha key cwd : String) :
    statusList (attemptEvents [] ⟨d, f, c, g, s, m, code, ch⟩ repo sha key cwd) =
      if d = false then [("error", "Repository directory not found")]
      else ("pending", "Deploy started") ::
        (if (f && c) = false then [("error", "Git fetch/checkout failed")]
         else if s = true then
           [if code = some 0 then ("success", "Deploy complete")
            else ("failure", "Deploy failed")]
         else
           ("error", "Deploy process failed to start") ::
           [if code = some 0 then ("success", "Deploy complete")
            else ("failure", "Deploy failed")]) := by
  cases d <;> cases f <;> cases c <;> cases s <;>
    by_cases hc : code = some 0 <;>
      simp [attemptEvents, deployFnSyncEvents, deployFnProcEvents,
        closeHandlerEvents, reportErrorAndCleanupEv, statusList, hc]

/-- C3 counterexample: a deploy whose git fetch step fails (directory
present) reports pending and then the error — not a single error with no
pending, as the claim states. -/
theorem pending_reported_before_git_error :
    statusList (attemptEvents []
        ⟨true, false, true, "fatal: remote ref not found", true, "", some 0, []⟩
        "octo/app" "abc123" "octo/app:main" "repos/app") =
      [("pending", "Deploy started"), ("error", "Git fetch/checkout failed")] ∧
    statusList (attemptEvents []
        ⟨true, false, true, "fatal: remote ref not found", true, "", some 0, []⟩
        "octo/app" "abc123" "octo/app:main" "repos/app") ≠
      [("error", "Git fetch/checkout failed")] := by
  exact ⟨rfl, by decide⟩

/-- C4 (amended): for every deploy attempt that acquires the lock and
finds the repository directory missing, the full trace is exactly: lock
acquisition, release of the key (inside reportErrorAndCleanup), a single
error status with description "Repository directory not found", and the
idempotent second release by the finally of withDeployLock.  In
particular no comment is added, no process is spawned, the error status
is reported after the key has been released, and the key does not leak. -/
theorem missing_dir_deploy_trace (f c s : Bool) (g m : String)
    (code : Option Int) (ch : List String) (repo sha key cwd : String) :
    attemptEvents [] ⟨false, f, c, g, s, m, code, ch⟩ repo sha key cwd =
      [Ev.lockAdd key, Ev.lockRemove key,
       Ev.statusEv repo sha "error" "Repository directory not found",
       Ev.lockRemove key] := rfl

/-- C4 counterexample: on the missing-directory path the deploy lock IS
held for part of the path — the trace of a concrete attempt contains the
lock acquisition event — contradicting the claim that the lock is never
held during this path. -/
theorem lock_held_during_missing_dir_path :
    Ev.lockAdd "octo/app:main" ∈
      attemptEvents [] ⟨false, true, true, "", true, "", some 0, []⟩
        "octo/app" "abc123" "octo/app:main" "repos/app" := by
  decide

set_option maxRecDepth 4000 in
/-- C7: evaluation of the deploy outcomes at the failing input and at the
two healthy ones.  Exit code 0 yields a success status with no comment,
and a non-zero close code yields a failure status plus one tail comment,
as the claim states.  But on a launch failure the claim fails on the
code: Node delivers the close event (with a negative errno code, here -2
for ENOENT) after the spawn error, so in addition to the error status and
launch-error comment of the spawn-error handler, the close handler also
reports a failure status and a Deploy failed comment (with the empty
buffer tail) — two terminal statuses, not a lone error. -/
theorem launch_failure_double_report :
    statusList (attemptEvents [] ⟨true, true, true, "", true, "", some 0, ["ok"]⟩
        "octo/app" "abc123" "octo/app:main" "repos/app") =
      [("pending", "Deploy started"), ("success", "Deploy complete")] ∧
    commentList (attemptEvents [] ⟨true, true, true, "", true, "", some 0, ["ok"]⟩
        "octo/app" "abc123" "octo/app:main" "repos/app") = [] ∧
    statusList (attemptEvents []
        ⟨true, true, true, "", true, "", some 1, ["build failed", "missing dep"]⟩
        "octo/app" "abc123" "octo/app:main" "repos/app") =
      [("pending", "Deploy started"), ("failure", "Deploy failed")] ∧
    commentList (attemptEvents []
        ⟨true, true, true, "", true, "", some 1, ["build failed", "missing dep"]⟩
        "octo/app" "abc123" "octo/app:main" "repos/app") =
      ["🚨 Deploy failed (exit code: 1)\n\n```\nbuild failed\nmissing dep\n```"] ∧
    statusList (attemptEvents []
        ⟨true, true, true, "", false, "spawn just ENOENT", some (-2), []⟩
        "octo/app" "abc123" "octo/app:main" "repos/app") =
      [("pending", "Deploy started"), ("error", "Deploy process failed to start"),
       ("failure", "Deploy failed")] ∧
    commentList (attemptEvents []
        ⟨true, true, true, "", false, "spawn just ENOENT", some (-2), []⟩
        "octo/app" "abc123" "octo/app:main" "repos/app") =
      ["🚨 Deploy process failed to start:\n\n```\nspawn just ENOENT\n```",
       "🚨 Deploy failed (exit code: -2)\n\n```\n\n```"] :=
  ⟨rfl, rfl, rfl, rfl, rfl, rfl⟩

/-- C8: the rolling buffer never exceeds 50 entries, and once more than 50
lines have been appended it holds exactly the most recent 50 appended
lines in arrival order (the oldest entries having been evicted first). -/
theorem rolling_buffer_bound (ls : List String) :
    (ls.foldl pushLine []).length ≤ 50 ∧
    (50 < ls.length → ls.foldl pushLine [] = ls.drop (ls.length - 50)) := by
  constructor
  · rw [foldl_pushLine_drop, List.length_drop]
    omega
  · intro _
    exact foldl_pushLine_drop ls

set_option maxRecDepth 4000 in
/-- C8 witness: appending 51 distinct lines leaves the 50 most recent
ones, the very first line having been evicted. -/
theorem rolling_buffer_bound_witness :
    ((List.range 51).map toString).foldl pushLine [] =
      ((List.range 51).map toString).drop 1 := by
  have h := (rolling_buffer_bound ((List.range 51).map toString)).2 (by simp)
  simpa using h

set_option maxRecDepth 4000 in
/-- C5 counterexample: the placeholder identifiers are truthy, so with a
token configured the Status Reporter does NOT no-op — it issues an
outbound API call targeting the placeholder repository, contradicting the
claim that no outbound API call is made. -/
theorem placeholder_status_call_made :
    extractIdentifiers none = ("unknown/unknown", "unknown") ∧
    setStatus (some "ghp_token") "unknown/unknown" "unknown" "error"
        "Webhook internal error" =
      some ⟨"POST", "/repos/unknown/unknown/statuses/unknown",
        [("state", "error"), ("description", "Webhook internal error"),
         ("context", "github-deploy")]⟩ :=
  ⟨rfl, rfl⟩

/-- C5 (amended): when nothing is extractable from the raw body the
placeholder identifiers "unknown/unknown" and "unknown" are used; being
non-empty they do not trigger the reporter's missing-identifier guard, so
the status call is skipped only when no API token is configured — with a
token configured an outbound call to the placeholder path is made. -/
theorem placeholder_reporter_behavior (tok st d : String) :
    extractIdentifiers none = ("unknown/unknown", "unknown") ∧
    (tok ≠ "" →
      setStatus (some tok) "unknown/unknown" "unknown" st d =
        some ⟨"POST", "/repos/unknown/unknown/statuses/unknown",
          [("state", st), ("description", d.take 140),
           ("context", "github-deploy")]⟩) ∧
    setStatus none "unknown/unknown" "unknown" st d = none := by
  refine ⟨rfl, fun h => ?_, rfl⟩
  unfold setStatus callGitHub
  rw [if_neg (by decide : ¬ (("unknown/unknown" : String) = "" ∨ ("unknown" : String) = ""))]
  rw [if_neg (by simp [truthy, h])]
  rfl

set_option maxRecDepth 4000 in
/-- C5 witness for the amended statement, at a concrete token. -/
theorem placeholder_reporter_behavior_witness :
    setStatus (some "ghp_token") "unknown/unknown" "unknown" "error"
        "Webhook internal error 2" =
      some ⟨"POST", "/repos/unknown/unknown/statuses/unknown",
        [("state", "error"), ("description", "Webhook internal error 2"),
         ("context", "github-deploy")]⟩ := by
  have h := (placeholder_reporter_behavior "ghp_token" "error"
    "Webhook internal error 2").2.1 (by decide)
  exact h.trans (by decide)

/-- C6 counterexample: a POST whose request stream errors is answered with
400 Bad Request — a status code outside the claimed set 200/401/405. -/
theorem request_error_response_is_400 :
    webhookResponse "POST" false [] false true true = 400 ∧
    webhookResponse "POST" false [] false true true ∉ ([200, 401, 405] : List Nat) := by
  decide

/-- C6 (amended): outside the log-retrieval GET path the webhook caller
only ever sees 200, 401, 405 or 400, and 400 arises only from a request
stream error. -/
theorem webhook_response_codes (method : String) (logDirSet : Bool)
    (parts : List String) (fileEx reqErr sig : Bool)
    (h : ¬ isLogGetPath method logDirSet parts) :
    webhookResponse method logDirSet parts fileEx reqErr sig ∈
      ([200, 401, 405, 400] : List Nat) ∧
    (webhookResponse method logDirSet parts fileEx reqErr sig = 400 →
      reqErr = true) := by
  unfold webhookResponse
  by_cases hm : method = "POST"
  · subst hm
    rw [if_neg (fun hh => absurd hh.1 (by decide))]
    rw [if_neg (fun hh => hh rfl)]
    cases reqErr <;> cases sig <;> simp
  · rw [if_neg (show ¬ (method = "GET" ∧ logDirSet = true ∧ parts.length = 2) from h),
      if_pos hm]
    simp

/-- C6 witness for the amended statement: a valid POST is answered 200,
which is in the allowed set. -/
theorem webhook_response_codes_witness :
    webhookResponse "POST" false [] false false true ∈
      ([200, 401, 405, 400] : List Nat) :=
  (webhook_response_codes "POST" false [] false false true (by decide)).1

/-- C9: the filter rejects — and the handler performs no deploy attempt
and makes no status call — whenever the event lacks a truthy ref, lacks a
truthy after, lacks repository metadata, or has deleted set; otherwise
the branch is the last path segment of the ref, branches other than main
and master are ignored without error (again no events), and exactly the
branches main and master proceed. -/
theorem event_filter_spec (e : RawEvent) (running : List String) (env : DeployEnv) :
    ((truthy e.ref = false ∨ truthy e.after = false ∨ e.repository = none ∨
        e.deleted = true) →
      filterEvent e = FilterResult.rejected ∧ handleEvent running env e = []) ∧
    (∀ b, filterEvent e = FilterResult.ignoredBranch b →
      handleEvent running env e = [] ∧ b = lastSegment (e.ref.getD "") ∧
      b ≠ "main" ∧ b ≠ "master") ∧
    (∀ sha repo b, filterEvent e = FilterResult.proceed sha repo b →
      b = lastSegment (e.ref.getD "") ∧ (b = "main" ∨ b = "master") ∧
      sha = e.after.getD "" ∧ e.repository = some repo) := by
  refine ⟨?_, ?_, ?_⟩
  · intro h
    have hc : (!truthy e.ref || !truthy e.after || e.repository.isNone ||
        e.deleted) = true := by
      rcases h with h | h | h | h <;> simp [h]
    have hf : filterEvent e = FilterResult.rejected := by
      unfold filterEvent
      rw [if_pos hc]
    exact ⟨hf, by simp [handleEvent, hf]⟩
  · intro b hb
    have hb0 := hb
    unfold filterEvent at hb
    by_cases hc : (!truthy e.ref || !truthy e.after || e.repository.isNone ||
        e.deleted) = true
    · rw [if_pos hc] at hb
      exact absurd hb (by simp)
    · rw [if_neg hc] at hb
      by_cases hbr : lastSegment (e.ref.getD "") ≠ "main" ∧
          lastSegment (e.ref.getD "") ≠ "master"
      · rw [if_pos hbr] at hb
        have hb2 : lastSegment (e.ref.getD "") = b := by
          injection hb
        refine ⟨by simp [handleEvent, hb0], hb2.symm, ?_, ?_⟩
        · rw [← hb2]
          exact hbr.1
        · rw [← hb2]
          exact hbr.2
      · rw [if_neg hbr] at hb
        exact absurd hb (by simp)
  · intro sha repo b hb
    unfold filterEvent at hb
    by_cases hc : (!truthy e.ref || !truthy e.after || e.repository.isNone ||
        e.deleted) = true
    · rw [if_pos hc] at hb
      exact absurd hb (by simp)
    · rw [if_neg hc] at hb
      by_cases hbr : lastSegment (e.ref.getD "") ≠ "main" ∧
          lastSegment (e.ref.getD "") ≠ "master"
      · rw [if_pos hbr] at hb
        exact absurd hb (by simp)
      · rw [if_neg hbr] at hb
        injection hb with h1 h2 h3
        have hor : lastSegment (e.ref.getD "") = "main" ∨
            lastSegment (e.ref.getD "") = "master" := by
          rcases not_and_or.mp hbr with h | h
          · exact Or.inl (not_not.mp h)
          · exact Or.inr (not_not.mp h)
        have hrep : e.repository.isNone = false := by
          by_cases hr : e.repository.isNone = true
          · exact absurd (by simp [hr]) hc
          · exact Bool.eq_false_iff.mpr hr
        cases hrepo : e.repository with
        | none =>
          rw [hrepo] at hrep
          simp at hrep
        | some r =>
          have hg : e.repository.getD ⟨none, none⟩ = r := by
            rw [hrepo]
            rfl
          rw [hg] at h2
          refine ⟨h3.symm, h3 ▸ hor, h1.symm, ?_⟩
          exact congrArg some h2

/-- C9 witness: a payload without a ref is rejected; a push to a dev
branch is ignored with no handler events; the branch computed for a push
to refs/heads/main is accepted. -/
theorem event_filter_spec_witness :
    filterEvent ⟨none, some "abc123", some ⟨some "octo/app", some "app"⟩, false⟩ =
      FilterResult.rejected ∧
    handleEvent [] ⟨true, true, true, "", true, "", some 0, []⟩
      ⟨some "refs/heads/dev", some "abc123", some ⟨some "octo/app", some "app"⟩,
        false⟩ = [] ∧
    (("main" : String) = "main" ∨ ("main" : String) = "master") := by
  refine ⟨?_, ?_, ?_⟩
  · exact ((event_filter_spec
      ⟨none, some "abc123", some ⟨some "octo/app", some "app"⟩, false⟩
      [] ⟨true, true, true, "", true, "", some 0, []⟩).1 (Or.inl rfl)).1
  · exact ((event_filter_spec
      ⟨some "refs/heads/dev", some "abc123", some ⟨some "octo/app", some "app"⟩,
        false⟩
      [] ⟨true, true, true, "", true, "", some 0, []⟩).2.1 "dev" (by decide)).1
  · exact ((event_filter_spec
      ⟨some "refs/heads/main", some "abc123", some ⟨some "octo/app", some "app"⟩,
        false⟩
      [] ⟨true, true, true, "", true, "", some 0, []⟩).2.2 "abc123"
      ⟨some "octo/app", some "app"⟩ "main" (by decide)).2.1

theorem deployKey_data (repo branch : String) :
    (deployKey repo branch).data = repo.data ++ ':' :: branch.data := by
  have hc : (":" : String).data = [':'] := rfl
  simp [deployKey, String.data_append, hc]

theorem deployKey_ne_of_full_name_ne (full1 full2 b1 b2 : String)
    (h1 : b1 = "main" ∨ b1 = "master") (h2 : b2 = "main" ∨ b2 = "master")
    (hne : full1 ≠ full2) : deployKey full1 b1 ≠ deployKey full2 b2 := by
  intro hk
  have hd : full1.data ++ ':' :: b1.data = full2.data ++ ':' :: b2.data := by
    have h := congrArg String.data hk
    rwa [deployKey_data, deployKey_data] at h
  rcases h1 with rfl | rfl <;> rcases h2 with rfl | rfl
  · exact hne (String.ext (List.append_inj' hd rfl).1)
  · have hlast := congrArg List.getLast? hd
    rw [List.getLast?_append_cons, List.getLast?_append_cons] at hlast
    exact absurd hlast (by decide)
  · have hlast := congrArg List.getLast? hd
    rw [List.getLast?_append_cons, List.getLast?_append_cons] at hlast
    exact absurd hlast (by decide)
  · exact hne (String.ext (List.append_inj' hd rfl).1)

/-- C10: two accepted events whose repositories share the short name but
differ in full name use the same working directory, yet their deploy keys
differ, so the second acquires the lock while the first holds its own —
both deploys run concurrently in the same directory. -/
theorem same_short_name_different_lock (full1 full2 name1 name2 b1 b2 : String)
    (hn : name1 = name2)
    (h1 : b1 = "main" ∨ b1 = "master") (h2 : b2 = "main" ∨ b2 = "master")
    (hf : full1 ≠ full2) :
    cwdOf name1 = cwdOf name2 ∧
    deployKey full1 b1 ≠ deployKey full2 b2 ∧
    (tryAcquire ((tryAcquire [] (deployKey full1 b1)).2) (deployKey full2 b2)).1 =
      true := by
  have hk := deployKey_ne_of_full_name_ne full1 full2 b1 b2 h1 h2 hf
  refine ⟨by rw [hn], hk, ?_⟩
  have step1 : tryAcquire [] (deployKey full1 b1) = (true, [deployKey full1 b1]) := rfl
  rw [step1]
  unfold tryAcquire
  rw [if_neg (by
    intro hcon
    simp at hcon
    exact hk hcon.symm)]

/-- C10 witness: repositories alice/app and bob/app share the short name
app, deploy into the same directory, and hold distinct locks that can be
held simultaneously. -/
theorem same_short_name_different_lock_witness :
    cwdOf "app" = cwdOf "app" ∧
    deployKey "alice/app" "main" ≠ deployKey "bob/app" "main" ∧
    (tryAcquire ((tryAcquire [] (deployKey "alice/app" "main")).2)
      (deployKey "bob/app" "main")).1 = true :=
  same_short_name_different_lock "alice/app" "bob/app" "app" "app" "main" "main"
    rfl (Or.inl rfl) (Or.inl rfl) (by decide)

end Webhook
